import Mathlib

/-!
Verification development for the call/return handling of the clang static
analyzer path-exploration engine (lib/StaticAnalyzer/Core/ExprEngineCallAndReturn.cpp)
and the template-argument diffing helper (lib/AST/ASTDiagnostic.cpp).

The C++ code is shallowly embedded: pointers become ids (Nat), nullable
pointers become Option, the exploded graph becomes an explicit collection of
(program point, state) identities with predecessor edges, collaborator
services (checker manager, dead-symbol reaper, function summaries, analysis
contexts) become explicit function parameters, and fatal assertion failures
become the value none of an Option result.
-/

set_option maxHeartbeats 1000000

namespace CSA

/-- Construction kinds of a C++ construct expression (mirrors
CXXConstructExpr::ConstructionKind). -/
inductive ConstructionKind where
  | CK_Complete
  | CK_NonVirtualBase
  | CK_VirtualBase
  | CK_Delegating
deriving DecidableEq

/-- The statement shapes the call/return code inspects: return statements
(dyn_cast to ReturnStmt), C++ construct expressions (dyn_cast to
CXXConstructExpr, which carry the constructed class and a construction kind),
call expressions, and everything else. -/
inductive StmtKind where
  | returnStmt
  | cxxConstructExpr (classId : Nat) (ck : ConstructionKind)
  | callExpr
  | otherStmt
deriving DecidableEq

/-- A statement or expression node of the AST: an address (pointer identity)
plus the shape the engine inspects. -/
structure Stmt where
  id : Nat
  kind : StmtKind
deriving DecidableEq

/-- True exactly when dyn_cast to ReturnStmt would succeed. -/
def Stmt.isReturnStmt (s : Stmt) : Bool :=
  match s.kind with
  | .returnStmt => true
  | _ => false

/-- A declaration: the call/return code only distinguishes function
declarations, block declarations (each with a variadic flag, queried by
shouldInlineDecl) and all other declarations. -/
inductive Decl where
  | functionDecl (id : Nat) (variadic : Bool)
  | blockDecl (id : Nat) (variadic : Bool)
  | otherDecl (id : Nat)
deriving DecidableEq

/-- The identity of a declaration (its pointer, used as the key of the
cross-call function-summary ledger and of the analysis-context map). -/
def Decl.declId : Decl → Nat
  | .functionDecl i _ => i
  | .blockDecl i _ => i
  | .otherDecl i => i

/-- The variadic test of shouldInlineDecl: a BlockDecl or FunctionDecl is
checked with isVariadic; other declarations fall through the dyn_cast chain. -/
def Decl.isVariadicCallee : Decl → Bool
  | .functionDecl _ v => v
  | .blockDecl _ v => v
  | .otherDecl _ => false

/-- The location-context chain: a persistent linked call stack.  A
topFrame is the StackFrameContext of the top-level analyzed declaration
(parent and call site are null); stackFrame is a StackFrameContext created
for an inlined call, recording the callee declaration, the call-site
expression, and the caller CFG block and statement index of the call; scope
and blockInvocation are the non-stack-frame context kinds. -/
inductive LocationContext where
  | topFrame (declId : Nat)
  | stackFrame (declId : Nat) (callSite : Option Stmt) (callSiteBlock : Nat)
      (index : Nat) (parent : LocationContext)
  | scope (parent : LocationContext)
  | blockInvocation (blockDeclId : Nat) (blockRegionId : Nat) (parent : LocationContext)
deriving DecidableEq

/-- LocationContext::getParent; null (none) only for the top-level frame. -/
def LocationContext.getParentOpt : LocationContext → Option LocationContext
  | .topFrame _ => none
  | .stackFrame _ _ _ _ p => some p
  | .scope p => some p
  | .blockInvocation _ _ p => some p

/-- LocationContext::getCurrentStackFrame: climb the parent chain to the
nearest enclosing stack frame (every chain is rooted in a top-level frame,
so this is total). -/
def LocationContext.getCurrentStackFrame : LocationContext → LocationContext
  | .scope p => p.getCurrentStackFrame
  | .blockInvocation _ _ p => p.getCurrentStackFrame
  | l => l

/-- The declaration a stack-frame context analyzes (used to fetch its
AnalysisDeclContext); meaningful on stack frames,0 otherwise. -/
def LocationContext.frameDeclId : LocationContext → Nat
  | .topFrame d => d
  | .stackFrame d _ _ _ _ => d
  | .scope _ => 0
  | .blockInvocation _ _ _ => 0

/-- StackFrameContext::getCallSite (null for the top-level frame). -/
def LocationContext.frameCallSite : LocationContext → Option Stmt
  | .stackFrame _ cs _ _ _ => cs
  | _ => none

/-- StackFrameContext::getCallSiteBlock, as a block id. -/
def LocationContext.frameCallSiteBlock : LocationContext → Nat
  | .stackFrame _ _ b _ _ => b
  | _ => 0

/-- StackFrameContext::getIndex: the statement index of the call site in its
caller block. -/
def LocationContext.frameIndex : LocationContext → Nat
  | .stackFrame _ _ _ i _ => i
  | _ => 0

/-- getNumberStackFrames of ExprEngineCallAndReturn.cpp: walk the chain and
count the contexts that are StackFrameContexts. -/
def getNumberStackFrames : LocationContext → Nat
  | .topFrame _ => 1
  | .stackFrame _ _ _ _ p => getNumberStackFrames p + 1
  | .scope p => getNumberStackFrames p
  | .blockInvocation _ _ p => getNumberStackFrames p

/-- The kinds of StmtPoint program points (PreStmt, PostStmt, the purge-dead
points, ...); getLastStmt only cares that a point is some StmtPoint, so the
kinds beyond postStmt are collapsed. -/
inductive StmtPointKind where
  | preStmt
  | postStmt
  | purgeDeadSymbols
deriving DecidableEq

/-- A program point.  CallEnter carries the call-site statement, the callee
stack-frame context and the caller context (its location context); a
CallExitBegin sits in the callee context; a CallExitEnd carries the callee
frame and the caller context (its location context); implicitCall stands for
the point of a call with no origin expression (PostImplicitCall). -/
inductive ProgramPoint where
  | stmtPoint (k : StmtPointKind) (s : Stmt) (lctx : LocationContext) (tag : Option String)
  | blockEdge (src : Nat) (dst : Nat) (lctx : LocationContext)
  | callEnter (callSite : Option Stmt) (calleeCtx : LocationContext) (callerCtx : LocationContext)
  | callExitBegin (lctx : LocationContext)
  | callExitEnd (calleeCtx : LocationContext) (callerCtx : LocationContext)
  | implicitCall (lctx : LocationContext)
deriving DecidableEq

/-- ProgramPoint::getLocationContext. -/
def ProgramPoint.locationContext : ProgramPoint → LocationContext
  | .stmtPoint _ _ l _ => l
  | .blockEdge _ _ l => l
  | .callEnter _ _ caller => caller
  | .callExitBegin l => l
  | .callExitEnd _ caller => caller
  | .implicitCall l => l

/-- Memory regions, as far as the inlining code inspects them: element
regions (array elements), decl regions (regions of simple addressable
declarations), the cxxThis region of a constructor frame, and the rest. -/
inductive MemRegion where
  | element (id : Nat)
  | declRegion (id : Nat)
  | cxxThis (classId : Nat) (frame : LocationContext)
  | otherRegion (id : Nat)
deriving DecidableEq

/-- isa ElementRegion. -/
def MemRegion.isElementRegion : MemRegion → Bool
  | .element _ => true
  | _ => false

/-- isa DeclRegion. -/
def MemRegion.isDeclRegion : MemRegion → Bool
  | .declRegion _ => true
  | _ => false

/-- Symbolic values.  A conjured symbol is parameterized by the originating
expression, the location context, the result type and the per-block
occurrence count, exactly the parameters of getConjuredSymbolVal. -/
inductive SVal where
  | unknownVal
  | concreteInt (n : Int)
  | memRegionVal (r : MemRegion)
  | conjured (e : Stmt) (lctx : LocationContext) (resultTy : Nat) (count : Nat)
deriving DecidableEq

/-- SVal::getAsRegion. -/
def SVal.getAsRegion : SVal → Option MemRegion
  | .memRegionVal r => some r
  | _ => none

/-- The program state, restricted to the components the call/return code
manipulates: the expression binding environment (keyed by expression and
location context), the store restricted to region reads the code performs,
the ReplayWithoutInlining side-table entry, and two logs standing in for the
effects of the collaborator operations enterStackFrame and
invalidateRegions (which do not touch the other components). -/
structure ProgramState where
  bindings : List ((Stmt × LocationContext) × SVal)
  regionBindings : List (MemRegion × SVal)
  replay : Option Stmt
  enteredFrames : List LocationContext
  invalidated : List Nat
deriving DecidableEq

/-- Environment lookup; an unbound expression reads as UnknownVal. -/
def lookupBinding : List ((Stmt × LocationContext) × SVal) → Stmt → LocationContext → SVal
  | [], _, _ => .unknownVal
  | (k, v) :: rest, e, c => if k = (e, c) then v else lookupBinding rest e c

/-- Store lookup; an unbound region reads as UnknownVal. -/
def lookupRegion : List (MemRegion × SVal) → MemRegion → SVal
  | [], _ => .unknownVal
  | (k, v) :: rest, r => if k = r then v else lookupRegion rest r

/-- ProgramState::BindExpr. -/
def ProgramState.bindExpr (s : ProgramState) (e : Stmt) (c : LocationContext) (v : SVal) :
    ProgramState :=
  { s with bindings := ((e, c), v) :: s.bindings }

/-- ProgramState::getSVal on an expression in a context. -/
def ProgramState.getSVal (s : ProgramState) (e : Stmt) (c : LocationContext) : SVal :=
  lookupBinding s.bindings e c

/-- ProgramState::getSVal on a region (a Loc). -/
def ProgramState.getSValRegion (s : ProgramState) (r : MemRegion) : SVal :=
  lookupRegion s.regionBindings r

/-- ProgramState::enterStackFrame: binds the actual arguments to the formals
of the callee frame; the parameter bindings themselves are collaborator
territory, so the effect is recorded as the entered frame (the resulting
state is distinct for distinct frames, which is all the orchestrator
observes here). -/
def ProgramState.enterStackFrame (s : ProgramState) (frame : LocationContext) : ProgramState :=
  { s with enteredFrames := frame :: s.enteredFrames }

/-- CallEvent::invalidateRegions: the conservative invalidation of regions
touched by an opaque call, recorded as a log entry; it does not touch the
ReplayWithoutInlining side-table. -/
def ProgramState.invalidateRegions (s : ProgramState) (count : Nat) : ProgramState :=
  { s with invalidated := count :: s.invalidated }

/-- A CFG basic block: its id, its elements, and its successor block ids. -/
structure CFGBlock where
  blockID : Nat
  elements : List Stmt
  succs : List Nat
deriving DecidableEq

/-- A control-flow graph: its entry block and the number of block ids. -/
structure CFG where
  entry : CFGBlock
  numBlockIDs : Nat
deriving DecidableEq

/-- CFG build options queried by inlineCall for constructors/destructors. -/
structure CFGBuildOptions where
  AddImplicitDtors : Bool
  AddInitializers : Bool
deriving DecidableEq

/-- An AnalysisDeclContext: the callee CFG (null when it cannot be
constructed), the relaxed live-variables analysis (null when it cannot be
computed), and the options its CFG was built with. -/
structure AnalysisDeclContext where
  cfg : Option CFG
  relaxedLiveVariables : Option Unit
  cfgBuildOptions : CFGBuildOptions

/-- The AnalysisManager: the map from declarations to their analysis
contexts and the inlining configuration. -/
structure AnalysisManager where
  contexts : Nat → AnalysisDeclContext
  InlineMaxStackDepth : Nat
  InlineMaxFunctionSize : Nat
  inlineCallOption : Bool

/-- The identity of an exploded node: its (program point, state) pair. -/
abbrev NodeId := ProgramPoint × ProgramState

/-- An exploded node, together with the chain of first predecessors
(the nodes successively reached by pred_begin), which is what the
backward walk of getLastStmt traverses. -/
structure ENode where
  loc : ProgramPoint
  state : ProgramState
  predPath : List NodeId
deriving DecidableEq

/-- The identity of a node in the exploded graph. -/
def ENode.identity (n : ENode) : NodeId := (n.loc, n.state)

/-- The exploded graph: the set of node identities present, and the
predecessor edges (pred identity, successor identity) registered by
addPredecessor. -/
structure Graph where
  seen : List NodeId
  edges : List (NodeId × NodeId)
deriving DecidableEq

/-- ExplodedGraph::getNode: get-or-create by identity.  Returns (isNew,
updated graph). -/
def Graph.getNode (G : Graph) (p : ProgramPoint) (s : ProgramState) : Bool × Graph :=
  if (p, s) ∈ G.seen then (false, G) else (true, { G with seen := (p, s) :: G.seen })

/-- ExplodedNode::addPredecessor, recorded as an edge on the graph. -/
def Graph.addPred (G : Graph) (node : NodeId) (pred : NodeId) : Graph :=
  { G with edges := (pred, node) :: G.edges }

/-- A work-list entry: enqueue(node) or enqueue(node, block, index). -/
inductive WLItem where
  | plain (n : ENode)
  | atPos (n : ENode) (block : Nat) (index : Nat)
deriving DecidableEq

/-- The work list consumed through the enqueue contract. -/
abbrev WorkList := List WLItem

/-- The engine context: the analysis manager, the cross-call
function-summary ledger (hasReachedMaxBlockCount keyed by declaration), and
the collaborator services used by the return sequence (the dead-symbol
reaper producing the cleaned nodes from the bind-return node, and the
checker manager's post-statement pass producing the checked nodes from the
call-exit-end node). -/
structure EngineCtx where
  AMgr : AnalysisManager
  hasReachedMaxBlockCount : Nat → Bool
  removeDead : ENode → List ENode
  runCheckersForPostStmt : ENode → Stmt → List ENode

/-- The Objective-C method families bindReturnValue switches over. -/
inductive ObjCMethodFamily where
  | OMF_autorelease
  | OMF_retain
  | OMF_self
  | OMF_None
  | OMF_otherFamily
deriving DecidableEq

/-- The CallEvent kinds (CallEventKind of CallEvent.h). -/
inductive CallKind where
  | CE_Function
  | CE_CXXMember
  | CE_CXXMemberOperator
  | CE_CXXConstructor
  | CE_CXXDestructor
  | CE_CXXAllocator
  | CE_Block
  | CE_ObjCMessage
deriving DecidableEq

/-- A call event: an immutable snapshot of one call occurrence.  The value
attributes (this value, receiver value) are part of the snapshot; the
runtime definition is null when the target cannot be resolved. -/
structure CallEvent where
  kind : CallKind
  originExpr : Option Stmt
  runtimeDefinition : Option Decl
  resultType : Nat
  cxxThisVal : SVal
  receiverSVal : SVal
  methodFamily : ObjCMethodFamily
  blockRegion : Option Nat
deriving DecidableEq

/-- CallEvent::getProgramPoint: the post-call point for the origin
expression, or a post-implicit-call point when there is none. -/
def CallEvent.getProgramPoint (c : CallEvent) (lctx : LocationContext) : ProgramPoint :=
  match c.originExpr with
  | some e => .stmtPoint .postStmt e lctx none
  | none => .implicitCall lctx

/-- ExprEngine::processCallEnter.  The callee context supplies the callee
CFG (a missing CFG or a malformed entry block - nonempty, or not exactly one
successor - is an assertion failure, returned as none).  A node is created
or deduplicated at the block edge from the entry block to its sole
successor, in the callee context, carrying the predecessor state unchanged;
the predecessor edge is registered and the node is enqueued exactly when it
is new. -/
def processCallEnter (E : EngineCtx) (calleeCtx : LocationContext) (Pred : ENode)
    (G : Graph) (WL : WorkList) : Option (Graph × WorkList) :=
  match (E.AMgr.contexts calleeCtx.frameDeclId).cfg with
  | none => none
  | some CalleeCFG =>
    match CalleeCFG.entry.elements, CalleeCFG.entry.succs with
    | [], [succ] =>
      let Loc : ProgramPoint := .blockEdge CalleeCFG.entry.blockID succ calleeCtx
      let r := G.getNode Loc Pred.state
      let G2 := r.2.addPred (Loc, Pred.state) Pred.identity
      some (G2, if r.1
        then WL ++ [.plain ⟨Loc, Pred.state, Pred.identity :: Pred.predPath⟩]
        else WL)
    | _, _ => none

/-- The first loop of getLastStmt: walk backward through the chain of first
predecessors until a statement point is found (its statement is the
answer), a CallExitEnd whose callee frame has a call site (that call site is
the answer; with no call site the walk continues into the nested callee), or
the CallEnter of the frame being exited (the callee ran no statements:
answer null).  Returns the found statement and the suffix of the path
starting at the node where the walk stopped; running off the end of the
chain models the unguarded pred_begin dereference and returns none. -/
def findLastStmtOnPath (SF : LocationContext) :
    List ProgramPoint → Option (Option Stmt × List ProgramPoint)
  | [] => none
  | PP :: rest =>
    match PP with
    | .stmtPoint _ s _ _ => some (some s, PP :: rest)
    | .callExitEnd calleeCtx callerCtx =>
      match calleeCtx.frameCallSite with
      | some s => some (some s, .callExitEnd calleeCtx callerCtx :: rest)
      | none => findLastStmtOnPath SF rest
    | .callEnter cs calleeCtx callerCtx =>
      if calleeCtx = SF then some (none, .callEnter cs calleeCtx callerCtx :: rest)
      else findLastStmtOnPath SF rest
    | _ => findLastStmtOnPath SF rest

/-- The second loop of getLastStmt: from the stop node of the first loop,
keep walking backward while the current node still has a predecessor,
looking for a block edge in the frame being exited; its destination block is
the enclosing block of the last statement.  The last node of the path has no
predecessor, so it is never examined. -/
def findBlockOnPath (SF : LocationContext) : List ProgramPoint → Option Nat
  | [] => none
  | [_] => none
  | PP :: rest =>
    match PP with
    | .blockEdge _ dst lctx =>
      if lctx.getCurrentStackFrame = SF then some dst else findBlockOnPath SF rest
    | _ => findBlockOnPath SF rest

/-- getLastStmt of ExprEngineCallAndReturn.cpp, over the backward path of
first predecessors of the input node (the head of the list is the input
node's own program point). -/
def getLastStmt (path : List ProgramPoint) : Option (Option Stmt × Option Nat) :=
  match path with
  | [] => none
  | PP0 :: _ =>
    let SF := PP0.locationContext.getCurrentStackFrame
    match findLastStmtOnPath SF path with
    | none => none
    | some (none, _) => some (none, none)
    | some (some s, restPath) => some (some s, findBlockOnPath SF restPath)

/-- The backward path of first predecessors of a node, starting at the node
itself. -/
def pathOf (n : ENode) : List ProgramPoint := n.loc :: n.predPath.map Prod.fst

/-- Step 2 of processCallExit: if there is a call-site expression and the
last statement is a return statement, bind the value the callee bound to
the return statement (read in the exit node's location context) to the call
expression in the parent context of the callee frame; then, if the call
site is a C++ construct expression, bind the address stored in the callee
frame's this-region to it instead (the code always runs this second binding
for construct expressions, after the one above). -/
def bindExitReturnValue (state : ProgramState) (CE : Option Stmt) (LastSt : Option Stmt)
    (calleeCtx par LCtx : LocationContext) : ProgramState :=
  match CE with
  | none => state
  | some ce =>
    let s1 := match LastSt with
      | some rs =>
        if rs.isReturnStmt then state.bindExpr ce par (state.getSVal rs LCtx) else state
      | none => state
    match ce.kind with
    | .cxxConstructExpr classId _ =>
      s1.bindExpr ce par (s1.getSValRegion (.cxxThis classId calleeCtx))
    | _ => s1

/-- The state the call-exit-end node carries for a cleaned node: the bound
state when the cleaned node is the CallExitBegin node itself (the
purge-skipping path adds CEBNode to the cleaned set but the bound state
must be used), otherwise the cleaned node's own state. -/
def ceeStateOf (CEBNode : ENode) (bState : ProgramState) (I : ENode) : ProgramState :=
  if I = CEBNode then bState else I.state

/-- The work-list items one loop iteration of the call-exit sequence
enqueues for a cleaned node: the post-statement checker results on the
call-exit-end node (or that node itself when there is no call expression),
each enqueued at the caller's call-site block with the index just after the
call site. -/
def ceeEnqueueItems (E : EngineCtx) (calleeCtx callerCtx : LocationContext)
    (CE : Option Stmt) (CEBNode : ENode) (bState : ProgramState) (I : ENode) : List WLItem :=
  let st := ceeStateOf CEBNode bState I
  let CEENode : ENode := ⟨.callExitEnd calleeCtx callerCtx, st, I.identity :: I.predPath⟩
  let Dst : List ENode := match CE with
    | some ce => E.runCheckersForPostStmt CEENode ce
    | none => [CEENode]
  Dst.map (fun n => .atPos n calleeCtx.frameCallSiteBlock (calleeCtx.frameIndex + 1))

/-- Steps 4 and 5 of processCallExit, iterated over the cleaned nodes: for
each cleaned node, get-or-create the CallExitEnd node and register the
predecessor edge; if that node already existed the loop returns at once
(the remaining cleaned nodes are not processed); otherwise the
post-statement checks run against the call expression when present, and
every resulting node is enqueued at the caller's call-site block with the
index just after the call site. -/
def callExitEndLoop (E : EngineCtx) (calleeCtx callerCtx : LocationContext)
    (CE : Option Stmt) (CEBNode : ENode) (bState : ProgramState) :
    List ENode → Graph → WorkList → Graph × WorkList
  | [], G, WL => (G, WL)
  | I :: rest, G, WL =>
    let Loc : ProgramPoint := .callExitEnd calleeCtx callerCtx
    let CEEState := ceeStateOf CEBNode bState I
    let r := G.getNode Loc CEEState
    let G2 := r.2.addPred (Loc, CEEState) I.identity
    if r.1 then
      callExitEndLoop E calleeCtx callerCtx CE CEBNode bState rest G2
        (WL ++ ceeEnqueueItems E calleeCtx callerCtx CE CEBNode bState I)
    else (G2, WL)

/-- The program-point tag of the bind-return-value node. -/
def retValBindTag : String := "ExprEngine : Bind Return Value"

/-- ExprEngine::processCallExit.  The callee frame is the current stack
frame of the exit node; its parent chain supplies the caller frame (none
models exiting the top frame, which cannot happen).  getLastStmt locates
the last statement and its block; step 2 computes the bound-return state;
when both a last statement and a block were found, the bind-return node is
created (stopping if it already existed), the dead bindings are purged into
the cleaned nodes, and the call-exit-end loop runs over them; otherwise the
purge is skipped and the loop runs over the CallExitBegin node alone. -/
def processCallExit (E : EngineCtx) (G : Graph) (WL : WorkList) (CEBNode : ENode) :
    Option (Graph × WorkList) :=
  let calleeCtx := CEBNode.loc.locationContext.getCurrentStackFrame
  match calleeCtx.getParentOpt with
  | none => none
  | some par =>
    let callerCtx := par.getCurrentStackFrame
    let CE := calleeCtx.frameCallSite
    match getLastStmt (pathOf CEBNode) with
    | none => none
    | some (LastSt, Blk) =>
      let state := bindExitReturnValue CEBNode.state CE LastSt calleeCtx par
        CEBNode.loc.locationContext
      match LastSt, Blk with
      | some ls, some _ =>
        let bindLoc : ProgramPoint := .stmtPoint .postStmt ls calleeCtx (some retValBindTag)
        let r := G.getNode bindLoc state
        let G2 := r.2.addPred (bindLoc, state) CEBNode.identity
        if r.1 then
          let BindedRetNode : ENode := ⟨bindLoc, state, CEBNode.identity :: CEBNode.predPath⟩
          let CleanedNodes := E.removeDead BindedRetNode
          some (callExitEndLoop E calleeCtx callerCtx CE CEBNode state CleanedNodes G2 WL)
        else some (G2, WL)
      | _, _ =>
        some (callExitEndLoop E calleeCtx callerCtx CE CEBNode state [CEBNode] G WL)

/-- ExprEngine::shouldInlineDecl: reject when the callee CFG cannot be
constructed, when the stack-frame count of the predecessor's context chain
equals the configured maximum inlining depth, when the function-summary
ledger records the declaration as having reached its maximum block count,
when the callee CFG has more block ids than the configured maximum function
size, when the callee (function or block) is variadic, or when the relaxed
live-variables analysis cannot be computed; accept otherwise. -/
def shouldInlineDecl (E : EngineCtx) (D : Decl) (Pred : ENode) : Bool :=
  match (E.AMgr.contexts D.declId).cfg with
  | none => false
  | some CalleeCFG =>
    if getNumberStackFrames Pred.loc.locationContext = E.AMgr.InlineMaxStackDepth then false
    else if E.hasReachedMaxBlockCount D.declId then false
    else if E.AMgr.InlineMaxFunctionSize < CalleeCFG.numBlockIDs then false
    else if D.isVariadicCallee then false
    else if ((E.AMgr.contexts D.declId).relaxedLiveVariables).isNone then false
    else true

/-- The outcome of the call-kind switch of inlineCall: a fatal assertion
(block call without a block region, constructor call whose origin is not a
construct expression), a veto (return false), or proceed with an optional
parent context for the callee frame (set only for block calls). -/
inductive InlineSwitchResult where
  | fatal
  | veto
  | proceed (parentOfCallee : Option LocationContext)

/-- The call-kind switch of ExprEngine::inlineCall.  Plain functions,
member calls, member operator calls and message sends always proceed;
allocator calls are vetoed; constructors and destructors require the caller
CFG to have been built with implicit destructors and initializers, veto a
this-region that is an array element region, and (for complete-object
construction only) veto a this-region that is not a simple declaration
region; block calls proceed with the block invocation context as the parent
of the callee frame. -/
def inlineCallKindCheck (E : EngineCtx) (CallerSFC : LocationContext) (D : Decl)
    (Call : CallEvent) : InlineSwitchResult :=
  match Call.kind with
  | .CE_Function => .proceed none
  | .CE_CXXMember => .proceed none
  | .CE_CXXMemberOperator => .proceed none
  | .CE_CXXConstructor | .CE_CXXDestructor =>
    let ADC := E.AMgr.contexts CallerSFC.frameDeclId
    if ¬ (ADC.cfgBuildOptions.AddImplicitDtors ∧ ADC.cfgBuildOptions.AddInitializers) then
      .veto
    else
      let Target := Call.cxxThisVal.getAsRegion
      if (match Target with | some r => r.isElementRegion | none => false) then .veto
      else if Call.kind = .CE_CXXConstructor then
        match Call.originExpr with
        | some ce =>
          match ce.kind with
          | .cxxConstructExpr _ ck =>
            if ck = .CK_Complete ∧
                (match Target with | some r => r.isDeclRegion | none => false) = false then
              .veto
            else .proceed none
          | _ => .fatal
        | none => .fatal
      else .proceed none
  | .CE_CXXAllocator => .veto
  | .CE_Block =>
    match Call.blockRegion with
    | none => .fatal
    | some br => .proceed (some (.blockInvocation D.declId br CallerSFC))
  | .CE_ObjCMessage => .proceed none

/-- ExprEngine::inlineCall.  Returns none on an assertion failure, some
(false, graph, work list) when the call is not inlined (the graph and work
list are returned as given), and some (true, updated graph, updated work
list) when the callee frame was entered: a CallEnter node carrying the
enterStackFrame state is created or deduplicated, the predecessor edge is
registered, and the node is enqueued exactly when new. -/
def inlineCall (E : EngineCtx) (currentBlock currentStmtIdx : Nat) (Call : CallEvent)
    (Pred : ENode) (G : Graph) (WL : WorkList) : Option (Bool × Graph × WorkList) :=
  if ¬ E.AMgr.inlineCallOption then some (false, G, WL)
  else
    match Call.runtimeDefinition with
    | none => some (false, G, WL)
    | some D =>
      let CurLC := Pred.loc.locationContext
      let CallerSFC := CurLC.getCurrentStackFrame
      match inlineCallKindCheck E CallerSFC D Call with
      | .fatal => none
      | .veto => some (false, G, WL)
      | .proceed pOpt =>
        if ¬ shouldInlineDecl E D Pred then some (false, G, WL)
        else
          let ParentOfCallee := pOpt.getD CallerSFC
          let CallE := Call.originExpr
          let CalleeSFC : LocationContext :=
            .stackFrame D.declId CallE currentBlock currentStmtIdx ParentOfCallee
          let Loc : ProgramPoint := .callEnter CallE CalleeSFC CurLC
          let State := Pred.state.enterStackFrame CalleeSFC
          let r := G.getNode Loc State
          let G2 := r.2.addPred (Loc, State) Pred.identity
          some (true, G2, if r.1
            then WL ++ [.plain ⟨Loc, State, Pred.identity :: Pred.predPath⟩]
            else WL)

/-- getInlineFailedState: none when the state carries no replay marker; a
marker naming a different statement than the call being evaluated is an
assertion failure (outer none); a matching marker is consumed, yielding the
state without it. -/
def getInlineFailedState (State : ProgramState) (CallE : Option Stmt) :
    Option (Option ProgramState) :=
  match State.replay with
  | none => some none
  | some marker =>
    if some marker = CallE then some (some { State with replay := none }) else none

/-- ExprEngine::bindReturnValue.  A call without an origin expression
leaves the state unchanged.  Objective-C messages of the autorelease,
retain and self families bind the receiver value; constructor calls bind
the this value; every other call binds a conjured symbol parameterized by
the origin expression, the location context, the declared result type, and
the current block count. -/
def bindReturnValue (Call : CallEvent) (LCtx : LocationContext) (State : ProgramState)
    (Count : Nat) : ProgramState :=
  match Call.originExpr with
  | none => State
  | some E =>
    match Call.kind with
    | .CE_ObjCMessage =>
      match Call.methodFamily with
      | .OMF_autorelease => State.bindExpr E LCtx Call.receiverSVal
      | .OMF_retain => State.bindExpr E LCtx Call.receiverSVal
      | .OMF_self => State.bindExpr E LCtx Call.receiverSVal
      | _ => State.bindExpr E LCtx (.conjured E LCtx Call.resultType Count)
    | .CE_CXXConstructor => State.bindExpr E LCtx Call.cxxThisVal
    | _ => State.bindExpr E LCtx (.conjured E LCtx Call.resultType Count)

/-- The generic non-inlined handling at the end of defaultEvalCall:
invalidate the regions affected by the call, bind the return value, and
generate the result node at the call's program point (deduplicated through
the graph; a new node joins the builder frontier). -/
def defaultEvalCallOpaque (Bldr : List ENode) (Pred : ENode) (Call : CallEvent)
    (State : ProgramState) (Count : Nat) (G : Graph) (WL : WorkList) :
    List ENode × Graph × WorkList :=
  let State1 := State.invalidateRegions Count
  let State2 := bindReturnValue Call Pred.loc.locationContext State1 Count
  let Loc := Call.getProgramPoint Pred.loc.locationContext
  let r := G.getNode Loc State2
  let G2 := r.2.addPred (Loc, State2) Pred.identity
  (if r.1 then Bldr ++ [⟨Loc, State2, Pred.identity :: Pred.predPath⟩] else Bldr, G2, WL)

/-- ExprEngine::defaultEvalCall.  A state carrying a replay-without-inlining
marker for this call consumes the marker and takes the generic non-inlined
path directly (a mismatched marker is an assertion failure); otherwise
inlining is attempted, and on success the predecessor is taken out of the
builder frontier, while on refusal the generic non-inlined path runs on the
unmodified state. -/
def defaultEvalCall (E : EngineCtx) (currentBlock currentStmtIdx Count : Nat)
    (Bldr : List ENode) (Pred : ENode) (CallTemplate : CallEvent) (G : Graph)
    (WL : WorkList) : Option (List ENode × Graph × WorkList) :=
  let State := Pred.state
  let Call := CallTemplate
  let Eo := Call.originExpr
  match getInlineFailedState State Eo with
  | none => none
  | some (some InlinedFailedState) =>
    some (defaultEvalCallOpaque Bldr Pred Call InlinedFailedState Count G WL)
  | some none =>
    match inlineCall E currentBlock currentStmtIdx Call Pred G WL with
    | none => none
    | some (true, G1, WL1) => some (Bldr.filter (fun n => n ≠ Pred), G1, WL1)
    | some (false, G1, WL1) => some (defaultEvalCallOpaque Bldr Pred Call State Count G1 WL1)

end CSA

namespace ASTDiag

/-- The APValue shapes IsEqualExpr switches over: integers (APSInt values,
compared after conversion to the parameter width), lvalues (with a
nullable value-declaration base), member pointers, and every other kind
(Float, ComplexInt, Vector, ... - the tag distinguishes which). -/
inductive APValue where
  | intVal (v : Int)
  | lvalue (base : Option Nat)
  | memberPointer (d : Nat)
  | otherVal (tag : Nat)
deriving DecidableEq

/-- The kind tags of APValue (APValue::getKind). -/
inductive APValueKind where
  | KInt
  | KLValue
  | KMemberPointer
  | KOther (tag : Nat)
deriving DecidableEq

/-- APValue::getKind. -/
def APValue.getKind : APValue → APValueKind
  | .intVal _ => .KInt
  | .lvalue _ => .KLValue
  | .memberPointer _ => .KMemberPointer
  | .otherVal t => .KOther t

/-- IsSameConvertedInt of ASTDiagnostic.cpp: both integers are extended or
truncated to the given width and the resulting bit patterns compared; a
two's-complement pattern at width w is the value modulo 2 to the w. -/
def IsSameConvertedInt (Width : Nat) (X Y : Int) : Bool :=
  X % ((2 : Int) ^ Width) = Y % ((2 : Int) ^ Width)

/-- A template-argument expression as IsEqualExpr inspects it: each node has
an address (pointer identity); it is a declaration reference, a
parenthesized expression, an expression that evaluates as an rvalue to an
APValue, or an expression whose evaluation fails. -/
inductive DiagExpr where
  | declRef (addr : Nat) (declId : Nat)
  | paren (addr : Nat) (sub : DiagExpr)
  | evalTo (addr : Nat) (v : APValue)
  | unevaluable (addr : Nat)
deriving DecidableEq

/-- The address (pointer identity) of an expression node. -/
def DiagExpr.addr : DiagExpr → Nat
  | .declRef a _ => a
  | .paren a _ => a
  | .evalTo a _ => a
  | .unevaluable a => a

/-- Expr::IgnoreParens. -/
def DiagExpr.ignoreParens : DiagExpr → DiagExpr
  | .paren _ sub => sub.ignoreParens
  | e => e

/-- dyn_cast to DeclRefExpr, yielding the referenced declaration. -/
def DiagExpr.asDeclRef : DiagExpr → Option Nat
  | .declRef _ d => some d
  | _ => none

/-- Expr::EvaluateAsRValue: the value when evaluation succeeds.  (A
declaration reference never reaches this call in IsEqualExpr; it is given
no value here.) -/
def DiagExpr.evalAsRValue : DiagExpr → Option APValue
  | .evalTo _ v => some v
  | .paren _ sub => sub.evalAsRValue
  | _ => none

/-- Pointer equality of two nullable expression pointers. -/
def ptrEq : Option DiagExpr → Option DiagExpr → Bool
  | none, none => true
  | some a, some b => a.addr = b.addr
  | _, _ => false

/-- IsEqualExpr of ASTDiagnostic.cpp.  Pointer-identical expressions are
equal; a null against a non-null is not equal; after stripping parentheses,
if either side is a declaration reference both must be, and equality is of
the referenced declarations; otherwise both sides are evaluated - a failed
evaluation is an assertion failure (none) - and values of different kinds
are not equal, integers compare at the parameter width, lvalues by their
nullable declaration bases, member pointers by their declarations, and any
other (same) kind is llvm_unreachable (none). -/
def IsEqualExpr (ParamWidth : Nat) (FromE ToE : Option DiagExpr) : Option Bool :=
  if ptrEq FromE ToE then some true
  else
    match FromE, ToE with
    | none, _ => some false
    | _, none => some false
    | some f0, some t0 =>
      let f := f0.ignoreParens
      let t := t0.ignoreParens
      match f.asDeclRef, t.asDeclRef with
      | some fd, some td => some (fd = td)
      | some _, none => some false
      | none, some _ => some false
      | none, none =>
        match f.evalAsRValue, t.evalAsRValue with
        | none, _ => none
        | some _, none => none
        | some fv, some tv =>
          if fv.getKind ≠ tv.getKind then some false
          else
            match fv, tv with
            | .intVal x, .intVal y => some (IsSameConvertedInt ParamWidth x y)
            | .lvalue fb, .lvalue tb =>
              match fb, tb with
              | none, none => some true
              | none, some _ => some false
              | some _, none => some false
              | some fd, some td => some (fd = td)
            | .memberPointer fd, .memberPointer td => some (fd = td)
            | _, _ => none

end ASTDiag

namespace CSA

/-- The empty program state. -/
def st0 : ProgramState := ⟨[], [], none, [], []⟩

/-- A generic engine context with pass-through collaborators. -/
def egE : EngineCtx :=
  ⟨⟨fun _ => ⟨none, none, ⟨false, false⟩⟩, 5, 50, true⟩, fun _ => false,
    fun n => [n], fun n _ => [n]⟩

/-- A concrete return statement of a callee returning the constant 42. -/
def c1rs : Stmt := ⟨11, .returnStmt⟩

/-- A concrete call expression at a call site. -/
def c1ce : Stmt := ⟨10, .callExpr⟩

/-- A concrete callee stack frame for the call site c1ce. -/
def c1cc : LocationContext := .stackFrame 1 (some c1ce) 5 3 (.topFrame 0)

/-- The callee state after evaluating a return of the constant 42: the
return statement is bound to 42 in the callee frame. -/
def c1st : ProgramState := ⟨[((c1rs, c1cc), .concreteInt 42)], [], none, [], []⟩

/-- A concrete call-exit-begin node of the callee, whose backward path
passes the return statement, a block edge in the callee, and the call
enter. -/
def c1ceb : ENode :=
  ⟨.callExitBegin c1cc, c1st,
    [(.stmtPoint .postStmt c1rs c1cc none, c1st), (.blockEdge 0 1 c1cc, c1st),
     (.callEnter (some c1ce) c1cc (.topFrame 0), c1st)]⟩

/-- A concrete return statement for the call-exit-end loop scenario. -/
def c4rs : Stmt := ⟨11, .returnStmt⟩

/-- A concrete call expression for the call-exit-end loop scenario. -/
def c4ce : Stmt := ⟨10, .callExpr⟩

/-- A concrete callee stack frame for the call site c4ce. -/
def c4cc : LocationContext := .stackFrame 1 (some c4ce) 5 3 (.topFrame 0)

/-- The state of the first cleaned node. -/
def c4s1 : ProgramState := ⟨[], [], none, [], [1]⟩

/-- The state of the second cleaned node. -/
def c4s2 : ProgramState := ⟨[], [], none, [], [2]⟩

/-- The first cleaned node produced by the purge step. -/
def c4n1 : ENode := ⟨.stmtPoint .purgeDeadSymbols c4rs c4cc none, c4s1, []⟩

/-- The second cleaned node produced by the purge step. -/
def c4n2 : ENode := ⟨.stmtPoint .purgeDeadSymbols c4rs c4cc none, c4s2, []⟩

/-- An engine context whose dead-binding purge produces the two cleaned
nodes c4n1 and c4n2, with pass-through post-statement checkers. -/
def c4E : EngineCtx :=
  ⟨⟨fun _ => ⟨none, none, ⟨false, false⟩⟩, 5, 50, true⟩, fun _ => false,
    fun _ => [c4n1, c4n2], fun n _ => [n]⟩

/-- A concrete call-exit-begin node whose backward path yields the return
statement c4rs and block 1. -/
def c4ceb : ENode :=
  ⟨.callExitBegin c4cc, st0,
    [(.stmtPoint .postStmt c4rs c4cc none, st0), (.blockEdge 0 1 c4cc, st0),
     (.callEnter (some c4ce) c4cc (.topFrame 0), st0)]⟩

/-- A graph already containing the call-exit-end identity of the first
cleaned node (a previous exploration converged on it). -/
def c4G0 : Graph := ⟨[(.callExitEnd c4cc (.topFrame 0), c4s1)], []⟩

/-- A concrete complete-object construct expression as a call site. -/
def c6ce : Stmt := ⟨20, .cxxConstructExpr 7 .CK_Complete⟩

/-- A concrete constructor callee stack frame for the call site c6ce. -/
def c6cc : LocationContext := .stackFrame 2 (some c6ce) 4 6 (.topFrame 0)

/-- A callee state whose this-region for the constructor frame holds the
address value 42. -/
def c6st : ProgramState := ⟨[], [(.cxxThis 7 c6cc, .concreteInt 42)], none, [], []⟩

/-- A call-exit-begin node of a constructor callee that ran no statements:
its backward path reaches the call enter of its own frame at once. -/
def c6ceb : ENode :=
  ⟨.callExitBegin c6cc, c6st, [(.callEnter (some c6ce) c6cc (.topFrame 0), c6st)]⟩

theorem getSVal_bindExpr_same (s : ProgramState) (e : Stmt) (c : LocationContext) (v : SVal) :
    (s.bindExpr e c v).getSVal e c = v := by
  simp [ProgramState.bindExpr, ProgramState.getSVal, lookupBinding]

theorem getSValRegion_bindExpr (s : ProgramState) (e : Stmt) (c : LocationContext) (v : SVal)
    (r : MemRegion) : (s.bindExpr e c v).getSValRegion r = s.getSValRegion r := rfl

theorem replay_bindExpr (s : ProgramState) (e : Stmt) (c : LocationContext) (v : SVal) :
    (s.bindExpr e c v).replay = s.replay := rfl

theorem replay_invalidateRegions (s : ProgramState) (n : Nat) :
    (s.invalidateRegions n).replay = s.replay := rfl

theorem replay_bindReturnValue (Call : CallEvent) (L : LocationContext) (s : ProgramState)
    (n : Nat) : (bindReturnValue Call L s n).replay = s.replay := by
  unfold bindReturnValue
  cases Call.originExpr with
  | none => rfl
  | some e =>
    cases Call.kind <;> simp only [replay_bindExpr]
    cases Call.methodFamily <;> simp only [replay_bindExpr]

theorem getNode_seen_self (G : Graph) (p : ProgramPoint) (s : ProgramState) :
    (p, s) ∈ ((G.getNode p s).2).seen := by
  unfold Graph.getNode
  split <;> simp_all

theorem getNode_seen_mono (G : Graph) (p : ProgramPoint) (s : ProgramState) (x : NodeId)
    (h : x ∈ G.seen) : x ∈ ((G.getNode p s).2).seen := by
  unfold Graph.getNode
  split <;> simp_all

theorem addPred_seen (G : Graph) (a b : NodeId) : (G.addPred a b).seen = G.seen := rfl

theorem callExitEndLoop_seen_mono (E : EngineCtx) (cc ccr : LocationContext)
    (CE : Option Stmt) (CEB : ENode) (bs : ProgramState) (cleaned : List ENode)
    (x : NodeId) : ∀ (G : Graph) (WL : WorkList), x ∈ G.seen →
    x ∈ (callExitEndLoop E cc ccr CE CEB bs cleaned G WL).1.seen := by
  induction cleaned with
  | nil => intro G WL h; simpa [callExitEndLoop] using h
  | cons I rest ih =>
    intro G WL h
    rw [callExitEndLoop]
    split
    · exact ih _ _ (getNode_seen_mono _ _ _ _ h)
    · simpa [addPred_seen] using getNode_seen_mono _ _ _ _ h

/-- C2: shouldInlineDecl rejects a declaration exactly when one of the six
policy conditions holds - the callee CFG cannot be constructed, the number
of stack-frame contexts of the predecessor's location-context chain equals
the configured maximum inlining depth, the function-summary ledger records
the declaration as having reached its maximum explored-block count, the
callee CFG has more blocks than the configured maximum function size, the
callee function or block is variadic, or the relaxed live-variables
analysis cannot be computed - and accepts otherwise. -/
theorem C2_shouldInlineDecl_veto_conditions (E : EngineCtx) (D : Decl) (Pred : ENode) :
    shouldInlineDecl E D Pred = false ↔
      ((E.AMgr.contexts D.declId).cfg = none ∨
       getNumberStackFrames Pred.loc.locationContext = E.AMgr.InlineMaxStackDepth ∨
       E.hasReachedMaxBlockCount D.declId = true ∨
       (∃ c, (E.AMgr.contexts D.declId).cfg = some c ∧
          E.AMgr.InlineMaxFunctionSize < c.numBlockIDs) ∨
       D.isVariadicCallee = true ∨
       (E.AMgr.contexts D.declId).relaxedLiveVariables = none) := by
  unfold shouldInlineDecl
  cases hcfg : (E.AMgr.contexts D.declId).cfg with
  | none => simp [hcfg]
  | some c =>
    simp only [hcfg, Option.some.injEq, reduceCtorEq, false_or]
    split_ifs with h1 h2 h3 h4 h5 <;>
      simp_all [Option.isNone_iff_eq_none]

/-- C10: when the analyzer-wide inline-call option is disabled or the
call's runtime target declaration cannot be resolved, inlineCall returns
false with the graph and work list untouched (no node is created, no stack
frame entered, no state modified), so the call falls to the opaque path. -/
theorem C10_inlineCall_disabled_or_unresolved (E : EngineCtx) (blk idx : Nat)
    (Call : CallEvent) (Pred : ENode) (G : Graph) (WL : WorkList)
    (h : E.AMgr.inlineCallOption = false ∨ Call.runtimeDefinition = none) :
    inlineCall E blk idx Call Pred G WL = some (false, G, WL) := by
  unfold inlineCall
  rcases h with h | h
  · simp [h]
  · cases hopt : E.AMgr.inlineCallOption <;> simp [h, hopt]

theorem inlineCall_of_kindCheck_veto (E : EngineCtx) (blk idx : Nat) (Call : CallEvent)
    (Pred : ENode) (G : Graph) (WL : WorkList)
    (h : ∀ D, Call.runtimeDefinition = some D →
      inlineCallKindCheck E (Pred.loc.locationContext.getCurrentStackFrame) D Call = .veto) :
    inlineCall E blk idx Call Pred G WL = some (false, G, WL) := by
  unfold inlineCall
  cases hopt : E.AMgr.inlineCallOption with
  | false => simp
  | true =>
    simp only [hopt, not_true_eq_false, if_false]
    cases hD : Call.runtimeDefinition with
    | none => simp
    | some D => simp [h D hD]

/-- C7: the call-kind vetoes of inlineCall.  An allocator call is never
inlined; a constructor or destructor call is not inlined when the caller's
CFG build options lack implicit destructors or initializer expansion, nor
when its this-region is an array element region; a complete-object
construction is not inlined unless its this-region is a simple declaration
region; in each such case inlineCall returns false with the graph and work
list untouched, so the call falls back to the opaque path. -/
theorem C7_inlineCall_ctor_dtor_allocator_vetoes (E : EngineCtx) (blk idx : Nat)
    (Call : CallEvent) (Pred : ENode) (G : Graph) (WL : WorkList) :
    (Call.kind = .CE_CXXAllocator →
      inlineCall E blk idx Call Pred G WL = some (false, G, WL)) ∧
    ((Call.kind = .CE_CXXConstructor ∨ Call.kind = .CE_CXXDestructor) →
      ((E.AMgr.contexts
          (Pred.loc.locationContext.getCurrentStackFrame).frameDeclId).cfgBuildOptions.AddImplicitDtors = false ∨
       (E.AMgr.contexts
          (Pred.loc.locationContext.getCurrentStackFrame).frameDeclId).cfgBuildOptions.AddInitializers = false) →
      inlineCall E blk idx Call Pred G WL = some (false, G, WL)) ∧
    ((Call.kind = .CE_CXXConstructor ∨ Call.kind = .CE_CXXDestructor) →
      (∃ r, Call.cxxThisVal.getAsRegion = some r ∧ r.isElementRegion = true) →
      inlineCall E blk idx Call Pred G WL = some (false, G, WL)) ∧
    (∀ ce cid, Call.kind = .CE_CXXConstructor → Call.originExpr = some ce →
      ce.kind = .cxxConstructExpr cid .CK_Complete →
      (match Call.cxxThisVal.getAsRegion with
        | some r => r.isDeclRegion | none => false) = false →
      inlineCall E blk idx Call Pred G WL = some (false, G, WL)) := by
  refine ⟨?_, ?_, ?_, ?_⟩
  · intro hk
    refine inlineCall_of_kindCheck_veto E blk idx Call Pred G WL (fun D _ => ?_)
    simp [inlineCallKindCheck, hk]
  · intro hk hopts
    refine inlineCall_of_kindCheck_veto E blk idx Call Pred G WL (fun D _ => ?_)
    rcases hk with hk | hk <;>
      rcases hopts with h | h <;>
        simp [inlineCallKindCheck, hk, h]
  · intro hk helem
    obtain ⟨r, hr, hre⟩ := helem
    refine inlineCall_of_kindCheck_veto E blk idx Call Pred G WL (fun D _ => ?_)
    rcases hk with hk | hk <;>
      simp [inlineCallKindCheck, hk, hr, hre, ite_self]
  · intro ce cid hk hce hcek htgt
    refine inlineCall_of_kindCheck_veto E blk idx Call Pred G WL (fun D _ => ?_)
    simp only [inlineCallKindCheck, hk]
    cases hr : Call.cxxThisVal.getAsRegion with
    | none => simp [hce, hcek, ite_self]
    | some r =>
      simp only [hr] at htgt
      cases r <;>
        simp_all [hce, hcek, MemRegion.isElementRegion, MemRegion.isDeclRegion, ite_self]

/-- Witness for C7: a concrete allocator call is refused with graph and
work list untouched. -/
theorem C7_witness :
    inlineCall ⟨⟨fun _ => ⟨none, none, ⟨true, true⟩⟩, 5, 50, true⟩, fun _ => false,
        fun n => [n], fun n _ => [n]⟩ 0 0
      ⟨.CE_CXXAllocator, none, some (.functionDecl 3 false), 0, .unknownVal, .unknownVal,
        .OMF_None, none⟩
      ⟨.callExitBegin (.topFrame 0), ⟨[], [], none, [], []⟩, []⟩ ⟨[], []⟩ [] =
      some (false, ⟨[], []⟩, []) :=
  (C7_inlineCall_ctor_dtor_allocator_vetoes _ 0 0 _ _ _ _).1 rfl

/-- Whether a call is handled by the generic conjuring branch of
bindReturnValue: not an Objective-C message of the autorelease, retain or
self families, and not a constructor call. -/
def conjuresResult (Call : CallEvent) : Prop :=
  (Call.kind = .CE_ObjCMessage →
    Call.methodFamily ≠ .OMF_autorelease ∧ Call.methodFamily ≠ .OMF_retain ∧
    Call.methodFamily ≠ .OMF_self) ∧
  Call.kind ≠ .CE_CXXConstructor

/-- C8: the opaque-path return-value binding.  A call without an origin
expression leaves the state unchanged; an Objective-C message of the
autorelease, retain or self families binds the receiver value; a
constructor call binds the this value; every other call binds a conjured
symbol parameterized by the call expression, the location context, the
result type and the block count, so two such calls differing in call
expression, context or block-occurrence count receive distinct results. -/
theorem C8_bindReturnValue_opaque_binding (Call : CallEvent) (LCtx : LocationContext)
    (State : ProgramState) (Count : Nat) :
    (Call.originExpr = none → bindReturnValue Call LCtx State Count = State) ∧
    (∀ e, Call.originExpr = some e → Call.kind = .CE_ObjCMessage →
      (Call.methodFamily = .OMF_autorelease ∨ Call.methodFamily = .OMF_retain ∨
       Call.methodFamily = .OMF_self) →
      (bindReturnValue Call LCtx State Count).getSVal e LCtx = Call.receiverSVal) ∧
    (∀ e, Call.originExpr = some e → Call.kind = .CE_CXXConstructor →
      (bindReturnValue Call LCtx State Count).getSVal e LCtx = Call.cxxThisVal) ∧
    (∀ e, Call.originExpr = some e → conjuresResult Call →
      (bindReturnValue Call LCtx State Count).getSVal e LCtx =
        .conjured e LCtx Call.resultType Count) ∧
    (∀ (Call2 : CallEvent) (LCtx2 : LocationContext) (State2 : ProgramState) (Count2 : Nat)
       (e e2 : Stmt), Call.originExpr = some e → conjuresResult Call →
      Call2.originExpr = some e2 → conjuresResult Call2 →
      (e ≠ e2 ∨ LCtx ≠ LCtx2 ∨ Count ≠ Count2) →
      (bindReturnValue Call LCtx State Count).getSVal e LCtx ≠
        (bindReturnValue Call2 LCtx2 State2 Count2).getSVal e2 LCtx2) := by
  have hconj : ∀ (C : CallEvent) (L : LocationContext) (S : ProgramState) (n : Nat) (e : Stmt),
      C.originExpr = some e → conjuresResult C →
      (bindReturnValue C L S n).getSVal e L = .conjured e L C.resultType n := by
    intro C L S n e he hc
    unfold bindReturnValue
    rw [he]
    rcases hc with ⟨hmsg, hctor⟩
    cases hk : C.kind
    case CE_ObjCMessage =>
      obtain ⟨h1, h2, h3⟩ := hmsg hk
      cases hf : C.methodFamily <;> simp_all [getSVal_bindExpr_same]
    all_goals simp_all [getSVal_bindExpr_same]
  refine ⟨?_, ?_, ?_, ?_, ?_⟩
  · intro h
    unfold bindReturnValue
    rw [h]
  · intro e he hk hfam
    unfold bindReturnValue
    rw [he, hk]
    rcases hfam with h | h | h <;> rw [h] <;> exact getSVal_bindExpr_same _ _ _ _
  · intro e he hk
    unfold bindReturnValue
    rw [he, hk]
    exact getSVal_bindExpr_same _ _ _ _
  · intro e he hc
    exact hconj Call LCtx State Count e he hc
  · intro Call2 LCtx2 State2 Count2 e e2 he hc he2 hc2 hdiff
    rw [hconj Call LCtx State Count e he hc, hconj Call2 LCtx2 State2 Count2 e2 he2 hc2]
    intro hcontra
    injection hcontra with h1 h2 h3 h4
    rcases hdiff with h | h | h
    · exact h h1
    · exact h h2
    · exact h h4

/-- Witness for C8: a concrete plain call conjures a symbol, and two
occurrence counts at the same site give distinct results. -/
theorem C8_witness :
    (bindReturnValue
        ⟨.CE_Function, some ⟨10, .callExpr⟩, none, 3, .unknownVal, .unknownVal, .OMF_None, none⟩
        (.topFrame 0) ⟨[], [], none, [], []⟩ 0).getSVal ⟨10, .callExpr⟩ (.topFrame 0) =
      .conjured ⟨10, .callExpr⟩ (.topFrame 0) 3 0 ∧
    (bindReturnValue
        ⟨.CE_Function, some ⟨10, .callExpr⟩, none, 3, .unknownVal, .unknownVal, .OMF_None, none⟩
        (.topFrame 0) ⟨[], [], none, [], []⟩ 0).getSVal ⟨10, .callExpr⟩ (.topFrame 0) ≠
      (bindReturnValue
        ⟨.CE_Function, some ⟨10, .callExpr⟩, none, 3, .unknownVal, .unknownVal, .OMF_None, none⟩
        (.topFrame 0) ⟨[], [], none, [], []⟩ 1).getSVal ⟨10, .callExpr⟩ (.topFrame 0) :=
  have hcr : conjuresResult
      ⟨.CE_Function, some ⟨10, .callExpr⟩, none, 3, .unknownVal, .unknownVal, .OMF_None, none⟩ := by
    exact ⟨fun h => absurd h (by decide), by decide⟩
  ⟨(C8_bindReturnValue_opaque_binding _ _ _ 0).2.2.2.1 _ rfl hcr,
   (C8_bindReturnValue_opaque_binding _ _ _ 0).2.2.2.2 _ _ _ 1 _ _ rfl hcr rfl hcr
      (Or.inr (Or.inr (by decide)))⟩

/-- C3: processCallEnter under a valid callee CFG.  A malformed entry block
(nonempty, or not exactly one successor) is an assertion failure; otherwise
a node is created or deduplicated at the block edge from the entry to its
sole successor in the callee context, carrying the predecessor's state
unchanged, the predecessor edge is registered, and the node is enqueued
exactly when it is new. -/
theorem C3_processCallEnter_transition (E : EngineCtx) (calleeCtx : LocationContext)
    (Pred : ENode) (G : Graph) (WL : WorkList) (cfg : CFG)
    (hcfg : (E.AMgr.contexts calleeCtx.frameDeclId).cfg = some cfg) :
    ((cfg.entry.elements ≠ [] ∨ cfg.entry.succs.length ≠ 1) →
      processCallEnter E calleeCtx Pred G WL = none) ∧
    (∀ succ, cfg.entry.elements = [] → cfg.entry.succs = [succ] →
      ∃ G2 WL2, processCallEnter E calleeCtx Pred G WL = some (G2, WL2) ∧
        (ProgramPoint.blockEdge cfg.entry.blockID succ calleeCtx, Pred.state) ∈ G2.seen ∧
        (Pred.identity, (ProgramPoint.blockEdge cfg.entry.blockID succ calleeCtx, Pred.state)) ∈
          G2.edges ∧
        (WL2 = WL ++ [.plain ⟨.blockEdge cfg.entry.blockID succ calleeCtx, Pred.state,
            Pred.identity :: Pred.predPath⟩] ↔
          (ProgramPoint.blockEdge cfg.entry.blockID succ calleeCtx, Pred.state) ∉ G.seen) ∧
        (WL2 = WL ↔
          (ProgramPoint.blockEdge cfg.entry.blockID succ calleeCtx, Pred.state) ∈ G.seen)) := by
  constructor
  · intro h
    rcases h with h | h
    · cases he : cfg.entry.elements with
      | nil => exact absurd he h
      | cons a l => simp [processCallEnter, hcfg, he]
    · cases hs : cfg.entry.succs with
      | nil => cases he : cfg.entry.elements <;> simp [processCallEnter, hcfg, he, hs]
      | cons s ss =>
        cases ss with
        | nil => rw [hs] at h; simp at h
        | cons s2 ss2 => cases he : cfg.entry.elements <;> simp [processCallEnter, hcfg, he, hs]
  · intro succ he hs
    by_cases hmem : (ProgramPoint.blockEdge cfg.entry.blockID succ calleeCtx, Pred.state) ∈ G.seen
    · refine ⟨G.addPred (.blockEdge cfg.entry.blockID succ calleeCtx, Pred.state) Pred.identity,
        WL, ?_, ?_, ?_, ?_, ?_⟩
      · simp [processCallEnter, hcfg, he, hs, Graph.getNode, hmem]
      · simpa [Graph.addPred] using hmem
      · simp [Graph.addPred]
      · constructor
        · intro hwl
          have := congrArg List.length hwl
          simp at this
        · intro hcontra
          exact absurd hmem hcontra
      · exact ⟨fun _ => hmem, fun _ => rfl⟩
    · refine ⟨Graph.addPred
          { G with seen := (.blockEdge cfg.entry.blockID succ calleeCtx, Pred.state) :: G.seen }
          (.blockEdge cfg.entry.blockID succ calleeCtx, Pred.state) Pred.identity,
        WL ++ [.plain ⟨.blockEdge cfg.entry.blockID succ calleeCtx, Pred.state,
          Pred.identity :: Pred.predPath⟩], ?_, ?_, ?_, ?_, ?_⟩
      · simp [processCallEnter, hcfg, he, hs, Graph.getNode, hmem]
      · simp [Graph.addPred]
      · simp [Graph.addPred]
      · exact ⟨fun _ => hmem, fun _ => rfl⟩
      · constructor
        · intro hwl
          have := congrArg List.length hwl
          simp at this
        · intro hcontra
          exact absurd hcontra hmem

/-- Witness for C3 at a concrete callee frame with a well-formed entry
block: the node appears at the block edge, inherits the predecessor's
state, and is enqueued since it is new. -/
theorem C3_witness :
    ∃ G2 WL2,
      processCallEnter ⟨⟨fun _ => ⟨some ⟨⟨0, [], [1]⟩, 3⟩, some (), ⟨true, true⟩⟩, 5, 50, true⟩,
          fun _ => false, fun n => [n], fun n _ => [n]⟩
        (.stackFrame 1 (some ⟨10, .callExpr⟩) 0 0 (.topFrame 0))
        ⟨.stmtPoint .preStmt ⟨10, .callExpr⟩ (.topFrame 0) none, ⟨[], [], none, [], []⟩, []⟩
        ⟨[], []⟩ [] = some (G2, WL2) ∧
      (ProgramPoint.blockEdge 0 1 (.stackFrame 1 (some ⟨10, .callExpr⟩) 0 0 (.topFrame 0)),
        (⟨[], [], none, [], []⟩ : ProgramState)) ∈ G2.seen ∧
      ((ProgramPoint.stmtPoint .preStmt ⟨10, .callExpr⟩ (.topFrame 0) none,
          (⟨[], [], none, [], []⟩ : ProgramState)),
        (ProgramPoint.blockEdge 0 1 (.stackFrame 1 (some ⟨10, .callExpr⟩) 0 0 (.topFrame 0)),
          (⟨[], [], none, [], []⟩ : ProgramState))) ∈ G2.edges ∧
      (WL2 = [] ++ [.plain ⟨.blockEdge 0 1 (.stackFrame 1 (some ⟨10, .callExpr⟩) 0 0 (.topFrame 0)),
          ⟨[], [], none, [], []⟩, (.stmtPoint .preStmt ⟨10, .callExpr⟩ (.topFrame 0) none,
            ⟨[], [], none, [], []⟩) :: []⟩] ↔
        (ProgramPoint.blockEdge 0 1 (.stackFrame 1 (some ⟨10, .callExpr⟩) 0 0 (.topFrame 0)),
          (⟨[], [], none, [], []⟩ : ProgramState)) ∉ (⟨[], []⟩ : Graph).seen) := by
  obtain ⟨G2, WL2, h1, h2, h3, h4, h5⟩ :=
    (C3_processCallEnter_transition ⟨⟨fun _ => ⟨some ⟨⟨0, [], [1]⟩, 3⟩, some (), ⟨true, true⟩⟩,
        5, 50, true⟩, fun _ => false, fun n => [n], fun n _ => [n]⟩
      (.stackFrame 1 (some ⟨10, .callExpr⟩) 0 0 (.topFrame 0))
      ⟨.stmtPoint .preStmt ⟨10, .callExpr⟩ (.topFrame 0) none, ⟨[], [], none, [], []⟩, []⟩
      ⟨[], []⟩ [] ⟨⟨0, [], [1]⟩, 3⟩ rfl).2 1 rfl rfl
  exact ⟨G2, WL2, h1, h2, h3, h4⟩

/-- C5: the replay-without-inlining marker.  When the predecessor state
carries a marker naming the call being evaluated, defaultEvalCall consumes
it and handles the call by the generic non-inlined path on the consumed
state - the work list is untouched (no call-enter node is scheduled, so
inlining is not retried) and every newly generated node carries a state
without the marker; a marker naming a different expression is an assertion
failure. -/
theorem C5_replay_marker_consumed (E : EngineCtx) (blk idx cnt : Nat) (Bldr : List ENode)
    (Pred : ENode) (Call : CallEvent) (G : Graph) (WL : WorkList) (m : Stmt)
    (hm : Pred.state.replay = some m) :
    (Call.originExpr = some m →
      defaultEvalCall E blk idx cnt Bldr Pred Call G WL =
        some (defaultEvalCallOpaque Bldr Pred Call { Pred.state with replay := none } cnt G WL) ∧
      (defaultEvalCallOpaque Bldr Pred Call { Pred.state with replay := none } cnt G WL).2.2 =
        WL ∧
      (∀ n, n ∈ (defaultEvalCallOpaque Bldr Pred Call
          { Pred.state with replay := none } cnt G WL).1 →
        n ∉ Bldr → n.state.replay = none)) ∧
    (Call.originExpr ≠ some m →
      defaultEvalCall E blk idx cnt Bldr Pred Call G WL = none) := by
  constructor
  · intro he
    refine ⟨?_, rfl, ?_⟩
    · simp only [defaultEvalCall, getInlineFailedState, hm, he]
      simp
    · intro n hn hnb
      simp only [defaultEvalCallOpaque] at hn
      split at hn
      · rcases List.mem_append.mp hn with h | h
        · exact absurd h hnb
        · have hn2 := List.mem_singleton.mp h
          rw [hn2]
          simp [replay_bindReturnValue, replay_invalidateRegions]
      · exact absurd hn hnb
  · intro hne
    have hcond : ¬ (some m = Call.originExpr) := fun h => hne h.symm
    simp [defaultEvalCall, getInlineFailedState, hm, if_neg hcond]

/-- Witness for C5: a concrete non-inlined call whose state carries a
matching replay marker is consumed and handled by the non-inlined path
with the work list untouched. -/
theorem C5_witness :
    defaultEvalCall ⟨⟨fun _ => ⟨none, none, ⟨false, false⟩⟩, 5, 50, true⟩, fun _ => false,
        fun n => [n], fun n _ => [n]⟩ 0 0 0 []
      ⟨.stmtPoint .preStmt ⟨10, .callExpr⟩ (.topFrame 0) none,
        ⟨[], [], some ⟨10, .callExpr⟩, [], []⟩, []⟩
      ⟨.CE_Function, some ⟨10, .callExpr⟩, none, 3, .unknownVal, .unknownVal, .OMF_None, none⟩
      ⟨[], []⟩ [] =
      some (defaultEvalCallOpaque []
        ⟨.stmtPoint .preStmt ⟨10, .callExpr⟩ (.topFrame 0) none,
          ⟨[], [], some ⟨10, .callExpr⟩, [], []⟩, []⟩
        ⟨.CE_Function, some ⟨10, .callExpr⟩, none, 3, .unknownVal, .unknownVal, .OMF_None, none⟩
        ⟨[], [], none, [], []⟩ 0 ⟨[], []⟩ []) ∧
    (defaultEvalCallOpaque []
        ⟨.stmtPoint .preStmt ⟨10, .callExpr⟩ (.topFrame 0) none,
          ⟨[], [], some ⟨10, .callExpr⟩, [], []⟩, []⟩
        ⟨.CE_Function, some ⟨10, .callExpr⟩, none, 3, .unknownVal, .unknownVal, .OMF_None, none⟩
        ⟨[], [], none, [], []⟩ 0 ⟨[], []⟩ []).2.2 = [] := by
  have h := (C5_replay_marker_consumed ⟨⟨fun _ => ⟨none, none, ⟨false, false⟩⟩, 5, 50, true⟩,
      fun _ => false, fun n => [n], fun n _ => [n]⟩ 0 0 0 []
    ⟨.stmtPoint .preStmt ⟨10, .callExpr⟩ (.topFrame 0) none,
      ⟨[], [], some ⟨10, .callExpr⟩, [], []⟩, []⟩
    ⟨.CE_Function, some ⟨10, .callExpr⟩, none, 3, .unknownVal, .unknownVal, .OMF_None, none⟩
    ⟨[], []⟩ [] ⟨10, .callExpr⟩ rfl).1 rfl
  exact ⟨h.1, h.2.1⟩

/-- C1: binding of the return value on call exit.  When the call site is
present and the last statement found in the callee is a return statement
(and the call is not a constructor call), the value the callee bound to the
return statement is bound to the call expression in the caller's (parent)
context; when the call site is a constructor expression, the constructed
object's address (the value of the callee frame's this-region) is bound to
it instead; and processCallExit registers the bind-return-value node
carrying exactly that state. -/
theorem C1_return_value_binding (E : EngineCtx) (G : Graph) (WL : WorkList) (CEBNode : ENode)
    (par : LocationContext) (ce rs : Stmt) (blk : Nat)
    (hpar : (CEBNode.loc.locationContext.getCurrentStackFrame).getParentOpt = some par)
    (hcs : (CEBNode.loc.locationContext.getCurrentStackFrame).frameCallSite = some ce)
    (hlast : getLastStmt (pathOf CEBNode) = some (some rs, some blk)) :
    (∃ r, processCallExit E G WL CEBNode = some r ∧
      (ProgramPoint.stmtPoint .postStmt rs (CEBNode.loc.locationContext.getCurrentStackFrame)
          (some retValBindTag),
        bindExitReturnValue CEBNode.state (some ce) (some rs)
          (CEBNode.loc.locationContext.getCurrentStackFrame) par
          CEBNode.loc.locationContext) ∈ r.1.seen) ∧
    (rs.isReturnStmt = true → (∀ cid ck, ce.kind ≠ .cxxConstructExpr cid ck) →
      (bindExitReturnValue CEBNode.state (some ce) (some rs)
          (CEBNode.loc.locationContext.getCurrentStackFrame) par
          CEBNode.loc.locationContext).getSVal ce par =
        CEBNode.state.getSVal rs CEBNode.loc.locationContext) ∧
    (∀ cid ck, ce.kind = .cxxConstructExpr cid ck →
      (bindExitReturnValue CEBNode.state (some ce) (some rs)
          (CEBNode.loc.locationContext.getCurrentStackFrame) par
          CEBNode.loc.locationContext).getSVal ce par =
        CEBNode.state.getSValRegion
          (.cxxThis cid (CEBNode.loc.locationContext.getCurrentStackFrame))) := by
  refine ⟨?_, ?_, ?_⟩
  · simp only [processCallExit, hpar, hlast, hcs]
    by_cases hmem : (ProgramPoint.stmtPoint .postStmt rs
        (CEBNode.loc.locationContext.getCurrentStackFrame) (some retValBindTag),
      bindExitReturnValue CEBNode.state (some ce) (some rs)
        (CEBNode.loc.locationContext.getCurrentStackFrame) par
        CEBNode.loc.locationContext) ∈ G.seen
    · simp only [Graph.getNode, if_pos hmem]
      refine ⟨_, rfl, ?_⟩
      simpa [Graph.addPred] using hmem
    · simp only [Graph.getNode, if_neg hmem]
      refine ⟨_, rfl, ?_⟩
      refine callExitEndLoop_seen_mono _ _ _ _ _ _ _ _ _ _ ?_
      simp [Graph.addPred]
  · intro hret hnc
    cases hk : ce.kind
    case cxxConstructExpr cid ck => exact absurd hk (hnc cid ck)
    all_goals simp [bindExitReturnValue, hret, hk, getSVal_bindExpr_same]
  · intro cid ck hk
    by_cases hret : rs.isReturnStmt <;>
      simp [bindExitReturnValue, hk, hret, getSVal_bindExpr_same, getSValRegion_bindExpr,
        ProgramState.getSValRegion, ProgramState.bindExpr, ProgramState.getSVal,
        lookupBinding]

/-- Witness for C1: the callee bound its return statement to the constant
42; after the return sequence the bind-return state gives the call
expression the value 42 in the caller's context, and processCallExit
registers that node. -/
theorem C1_witness :
    (bindExitReturnValue c1st (some c1ce) (some c1rs) c1cc (.topFrame 0) c1cc).getSVal
        c1ce (.topFrame 0) = .concreteInt 42 ∧
    (∃ r, processCallExit egE ⟨[], []⟩ [] c1ceb = some r ∧
      (ProgramPoint.stmtPoint .postStmt c1rs c1cc (some retValBindTag),
        bindExitReturnValue c1st (some c1ce) (some c1rs) c1cc (.topFrame 0) c1cc) ∈
        r.1.seen) := by
  have h := C1_return_value_binding egE ⟨[], []⟩ [] c1ceb (.topFrame 0) c1ce c1rs 1
    rfl rfl rfl
  refine ⟨?_, h.1⟩
  have h2 := h.2.1 rfl (fun cid ck hx => by simp [c1ce] at hx)
  exact h2.trans rfl

/-- Counterexample to C6 as stated: a constructor callee that ran no
statements.  getLastStmt yields neither a statement nor a block, the purge
is skipped, yet the call-exit-end node is NOT created with the original
call-exit-begin state: the single node registered carries a state binding
the construct expression to the constructed address 42, while the
call-exit-begin state leaves it unbound. -/
theorem C6_counterexample :
    getLastStmt (pathOf c6ceb) = some (none, none) ∧
    (processCallExit egE ⟨[], []⟩ [] c6ceb).map
        (fun r => r.1.seen.map (fun idp => idp.2.getSVal c6ce (.topFrame 0))) =
      some [.concreteInt 42] ∧
    c6ceb.state.getSVal c6ce (.topFrame 0) = .unknownVal :=
  ⟨rfl, rfl, rfl⟩

/-- C6 (amended): when getLastStmt yields neither a last statement nor a
block, the purge step is skipped and the call-exit-end node is created (or
deduplicated) directly from the call-exit-begin node; its state is the
step-2 state, which equals the call-exit-begin state whenever the call
site is absent or is not a constructor expression (a constructor call site
still gets the constructed address bound, since that binding does not
depend on the last statement). -/
theorem C6_skip_purge_amended (E : EngineCtx) (G : Graph) (WL : WorkList)
    (CEBNode : ENode) (par cc : LocationContext) (st1 : ProgramState)
    (hcc : CEBNode.loc.locationContext.getCurrentStackFrame = cc)
    (hpar : cc.getParentOpt = some par)
    (hlast : getLastStmt (pathOf CEBNode) = some (none, none))
    (hst : bindExitReturnValue CEBNode.state cc.frameCallSite none cc par
      CEBNode.loc.locationContext = st1) :
    processCallExit E G WL CEBNode =
      some (callExitEndLoop E cc par.getCurrentStackFrame cc.frameCallSite CEBNode st1
        [CEBNode] G WL) ∧
    (ProgramPoint.callExitEnd cc par.getCurrentStackFrame, st1) ∈
      (callExitEndLoop E cc par.getCurrentStackFrame cc.frameCallSite CEBNode st1
        [CEBNode] G WL).1.seen ∧
    (CEBNode.identity, (ProgramPoint.callExitEnd cc par.getCurrentStackFrame, st1)) ∈
      (callExitEndLoop E cc par.getCurrentStackFrame cc.frameCallSite CEBNode st1
        [CEBNode] G WL).1.edges ∧
    ((∀ ce, cc.frameCallSite = some ce → ∀ cid ck, ce.kind ≠ .cxxConstructExpr cid ck) →
      st1 = CEBNode.state) := by
  refine ⟨?_, ?_, ?_, ?_⟩
  · simp only [processCallExit, hcc, hpar, hlast, hst]
  · by_cases hmem : (ProgramPoint.callExitEnd cc par.getCurrentStackFrame, st1) ∈ G.seen <;>
      simp [callExitEndLoop, ceeStateOf, Graph.getNode, Graph.addPred, hmem]
  · by_cases hmem : (ProgramPoint.callExitEnd cc par.getCurrentStackFrame, st1) ∈ G.seen <;>
      simp [callExitEndLoop, ceeStateOf, Graph.getNode, Graph.addPred, hmem]
  · intro h
    rw [← hst]
    cases hcs : cc.frameCallSite with
    | none => rfl
    | some ce =>
      have hnc := h ce hcs
      cases hk : ce.kind
      case cxxConstructExpr cid ck => exact absurd hk (hnc cid ck)
      all_goals simp [bindExitReturnValue, hk]

/-- Witness for the amended C6 at a concrete constructor callee that ran
no statements: the purge is skipped and the call-exit-end node descends
directly from the call-exit-begin node, carrying the step-2 state. -/
theorem C6_witness :
    processCallExit egE ⟨[], []⟩ [] c6ceb =
      some (callExitEndLoop egE c6cc (.topFrame 0) (some c6ce) c6ceb
        (bindExitReturnValue c6st (some c6ce) none c6cc (.topFrame 0) c6cc) [c6ceb]
        ⟨[], []⟩ []) ∧
    (ProgramPoint.callExitEnd c6cc (.topFrame 0),
      bindExitReturnValue c6st (some c6ce) none c6cc (.topFrame 0) c6cc) ∈
      (callExitEndLoop egE c6cc (.topFrame 0) (some c6ce) c6ceb
        (bindExitReturnValue c6st (some c6ce) none c6cc (.topFrame 0) c6cc) [c6ceb]
        ⟨[], []⟩ []).1.seen := by
  have h := C6_skip_purge_amended egE ⟨[], []⟩ [] c6ceb (.topFrame 0) c6cc
    (bindExitReturnValue c6st (some c6ce) none c6cc (.topFrame 0) c6cc) rfl rfl rfl rfl
  exact ⟨h.1, h.2.1⟩

/-- Counterexample to C4 as stated: the purge step produces two cleaned
nodes, and the call-exit-end identity of the first one already exists in
the graph.  The loop returns at once: no call-exit-end node is created for
the second cleaned node (its identity is absent from the final graph) and
nothing at all is enqueued, although the pass-through checkers would have
produced one node per processed cleaned node. -/
theorem C4_counterexample :
    c4E.removeDead ⟨.stmtPoint .postStmt c4rs c4cc (some retValBindTag), st0,
      c4ceb.identity :: c4ceb.predPath⟩ = [c4n1, c4n2] ∧
    (ProgramPoint.callExitEnd c4cc (.topFrame 0), c4s1) ∈ c4G0.seen ∧
    c4s1 ≠ c4s2 ∧
    (processCallExit c4E c4G0 [] c4ceb).map (fun r => (r.2.length,
        decide ((ProgramPoint.callExitEnd c4cc (.topFrame 0), c4s2) ∈ r.1.seen))) =
      some (0, false) :=
  ⟨rfl, by decide, by decide, by decide⟩

/-- C4 (amended): the call-exit-end loop over the cleaned nodes.  When
every cleaned node's call-exit-end identity is new at its turn (their
states are pairwise distinct and none is already in the graph), each
cleaned node gets its call-exit-end node created, the post-call checks run
and every resulting node is enqueued at the caller's call-site block with
the index just after the call site; but as soon as one cleaned node's
call-exit-end node already existed, the loop returns, leaving the
remaining cleaned nodes unprocessed. -/
theorem C4_callExitEnd_loop_amended (E : EngineCtx) (cc ccr : LocationContext)
    (CE : Option Stmt) (CEB : ENode) (bState : ProgramState) :
    (∀ (cleaned : List ENode) (G : Graph) (WL : WorkList),
      (cleaned.map (ceeStateOf CEB bState)).Nodup →
      (∀ I ∈ cleaned, (ProgramPoint.callExitEnd cc ccr, ceeStateOf CEB bState I) ∉ G.seen) →
      (callExitEndLoop E cc ccr CE CEB bState cleaned G WL).2 =
        WL ++ (cleaned.map (ceeEnqueueItems E cc ccr CE CEB bState)).flatten ∧
      (∀ I ∈ cleaned, (ProgramPoint.callExitEnd cc ccr, ceeStateOf CEB bState I) ∈
        (callExitEndLoop E cc ccr CE CEB bState cleaned G WL).1.seen)) ∧
    (∀ (I : ENode) (rest : List ENode) (G : Graph) (WL : WorkList),
      (ProgramPoint.callExitEnd cc ccr, ceeStateOf CEB bState I) ∈ G.seen →
      callExitEndLoop E cc ccr CE CEB bState (I :: rest) G WL =
        (G.addPred (ProgramPoint.callExitEnd cc ccr, ceeStateOf CEB bState I) I.identity,
          WL)) := by
  constructor
  · intro cleaned
    induction cleaned with
    | nil =>
      intro G WL _ _
      exact ⟨by simp [callExitEndLoop], by simp⟩
    | cons I rest ih =>
      intro G WL hnd hfresh
      have hmemI := hfresh I (List.mem_cons_self I rest)
      have hnd2 := hnd
      rw [List.map_cons, List.nodup_cons] at hnd2
      have hrest : ∀ J ∈ rest,
          (ProgramPoint.callExitEnd cc ccr, ceeStateOf CEB bState J) ∉
            (ProgramPoint.callExitEnd cc ccr, ceeStateOf CEB bState I) :: G.seen := by
        intro J hJ hmem
        rcases List.mem_cons.mp hmem with h | h
        · have : ceeStateOf CEB bState J = ceeStateOf CEB bState I := by
            have := congrArg Prod.snd h
            simpa using this
          exact hnd2.1 (this ▸ List.mem_map_of_mem (ceeStateOf CEB bState) hJ)
        · exact hfresh J (List.mem_cons_of_mem I hJ) h
      have ihx := ih (Graph.addPred
          ⟨(ProgramPoint.callExitEnd cc ccr, ceeStateOf CEB bState I) :: G.seen, G.edges⟩
          (ProgramPoint.callExitEnd cc ccr, ceeStateOf CEB bState I) I.identity)
        (WL ++ ceeEnqueueItems E cc ccr CE CEB bState I) hnd2.2
        (by simpa [Graph.addPred] using hrest)
      constructor
      · rw [callExitEndLoop]
        simp only [Graph.getNode, if_neg hmemI, if_pos]
        rw [ihx.1]
        simp [List.append_assoc]
      · intro J hJ
        rw [callExitEndLoop]
        simp only [Graph.getNode, if_neg hmemI, if_pos]
        rcases List.mem_cons.mp hJ with h | h
        · subst h
          refine callExitEndLoop_seen_mono _ _ _ _ _ _ _ _ _ _ ?_
          simp [Graph.addPred]
        · exact ihx.2 J h
  · intro I rest G WL hmem
    rw [callExitEndLoop]
    simp [Graph.getNode, hmem]

/-- Witness for the amended C4: two cleaned nodes with distinct states and
fresh identities are both processed, and the pass-through checker result of
each is enqueued at the caller's call-site block 5 with index 4. -/
theorem C4_witness :
    (callExitEndLoop c4E c4cc (.topFrame 0) (some c4ce) c4ceb st0 [c4n1, c4n2]
        ⟨[], []⟩ []).2 =
      [] ++ ([c4n1, c4n2].map (ceeEnqueueItems c4E c4cc (.topFrame 0) (some c4ce)
        c4ceb st0)).flatten ∧
    (∀ I ∈ [c4n1, c4n2], (ProgramPoint.callExitEnd c4cc (.topFrame 0),
        ceeStateOf c4ceb st0 I) ∈
      (callExitEndLoop c4E c4cc (.topFrame 0) (some c4ce) c4ceb st0 [c4n1, c4n2]
        ⟨[], []⟩ []).1.seen) :=
  (C4_callExitEnd_loop_amended c4E c4cc (.topFrame 0) (some c4ce) c4ceb st0).1
    [c4n1, c4n2] ⟨[], []⟩ [] (by decide) (by decide)

/-- Witness for C10 at a concrete call: the option is enabled but the
runtime definition is unresolved. -/
theorem C10_witness :
    inlineCall ⟨⟨fun _ => ⟨none, none, ⟨false, false⟩⟩, 5, 50, true⟩, fun _ => false,
        fun n => [n], fun n _ => [n]⟩ 0 0
      ⟨.CE_Function, none, none, 0, .unknownVal, .unknownVal, .OMF_None, none⟩
      ⟨.callExitBegin (.topFrame 0), ⟨[], [], none, [], []⟩, []⟩ ⟨[], []⟩ [] =
      some (false, ⟨[], []⟩, []) :=
  C10_inlineCall_disabled_or_unresolved _ 0 0 _ _ _ _ (Or.inr rfl)

end CSA

namespace ASTDiag

/-- Counterexample to C9 as stated: two template-argument expressions whose
values share the same unrepresentable kind do not compare as not-equal;
the comparison hits llvm_unreachable (an assertion failure, modeled as
none) instead of returning false. -/
theorem C9_counterexample :
    IsEqualExpr 8 (some (.evalTo 1 (.otherVal 0))) (some (.evalTo 2 (.otherVal 0))) =
      none :=
  rfl

/-- C9 (amended): in the diffing helper, values of different kinds, a
declaration reference against a non-reference, and a null expression
against a non-null one all compare as not-equal (false) rather than
erroring; but an expression whose evaluation fails, or two values sharing
the same unrepresentable kind, are assertion failures (none), not a false
result. -/
theorem C9_unrepresentable_not_equal_amended (W : Nat) :
    (∀ a1 a2 v1 v2, a1 ≠ a2 → APValue.getKind v1 ≠ APValue.getKind v2 →
      IsEqualExpr W (some (.evalTo a1 v1)) (some (.evalTo a2 v2)) = some false) ∧
    (∀ a1 d a2 v, a1 ≠ a2 →
      IsEqualExpr W (some (.declRef a1 d)) (some (.evalTo a2 v)) = some false ∧
      IsEqualExpr W (some (.evalTo a2 v)) (some (.declRef a1 d)) = some false) ∧
    (∀ e, IsEqualExpr W none (some e) = some false ∧
      IsEqualExpr W (some e) none = some false) ∧
    (∀ a1 a2 t, a1 ≠ a2 →
      IsEqualExpr W (some (.evalTo a1 (.otherVal t))) (some (.evalTo a2 (.otherVal t))) =
        none) ∧
    (∀ a1 a2 v, a1 ≠ a2 →
      IsEqualExpr W (some (.unevaluable a1)) (some (.evalTo a2 v)) = none) := by
  refine ⟨?_, ?_, ?_, ?_, ?_⟩
  · intro a1 a2 v1 v2 ha hk
    simp [IsEqualExpr, ptrEq, DiagExpr.addr, DiagExpr.ignoreParens, DiagExpr.asDeclRef,
      DiagExpr.evalAsRValue, ha, hk]
  · intro a1 d a2 v ha
    constructor <;>
      simp [IsEqualExpr, ptrEq, DiagExpr.addr, DiagExpr.ignoreParens, DiagExpr.asDeclRef,
        ha, ha.symm]
  · intro e
    exact ⟨rfl, rfl⟩
  · intro a1 a2 t ha
    simp [IsEqualExpr, ptrEq, DiagExpr.addr, DiagExpr.ignoreParens, DiagExpr.asDeclRef,
      DiagExpr.evalAsRValue, ha, APValue.getKind]
  · intro a1 a2 v ha
    simp [IsEqualExpr, ptrEq, DiagExpr.addr, DiagExpr.ignoreParens, DiagExpr.asDeclRef,
      DiagExpr.evalAsRValue, ha]

/-- Witness for the amended C9: an integer compared against an lvalue (two
representable values of different kinds) is conservatively not-equal. -/
theorem C9_witness :
    IsEqualExpr 8 (some (.evalTo 1 (.intVal 5))) (some (.evalTo 2 (.lvalue none))) =
      some false :=
  (C9_unrepresentable_not_equal_amended 8).1 1 2 (.intVal 5) (.lvalue none)
    (by decide) (by decide)

end ASTDiag
